import Mathlib

/-!
# Chain of Trust feature of generic-worker

Shallow embedding of `chain_of_trust.go`: the reserved artifact names, the
key loading, the start guard, the artifact hashing and the certificate
production of `ChainOfTrustTaskFeature.Stop`.

Bytes are natural numbers below 256 and 32-bit words are natural numbers
reduced modulo `2 ^ 32`.
-/

namespace GenericWorker

/-- A byte string: every element is meant to be below 256. -/
abbrev Bytes := List Nat

/-! ## crypto/sha256 and encoding/hex (Go standard library, FIPS 180-4) -/

namespace SHA256

/-- Round constants of SHA-256. -/
def K : List Nat :=
  [0x428a2f98, 0x71374491, 0xb5c0fbcf, 0xe9b5dba5, 0x3956c25b, 0x59f111f1, 0x923f82a4, 0xab1c5ed5,
   0xd807aa98, 0x12835b01, 0x243185be, 0x550c7dc3, 0x72be5d74, 0x80deb1fe, 0x9bdc06a7, 0xc19bf174,
   0xe49b69c1, 0xefbe4786, 0x0fc19dc6, 0x240ca1cc, 0x2de92c6f, 0x4a7484aa, 0x5cb0a9dc, 0x76f988da,
   0x983e5152, 0xa831c66d, 0xb00327c8, 0xbf597fc7, 0xc6e00bf3, 0xd5a79147, 0x06ca6351, 0x14292967,
   0x27b70a85, 0x2e1b2138, 0x4d2c6dfc, 0x53380d13, 0x650a7354, 0x766a0abb, 0x81c2c92e, 0x92722c85,
   0xa2bfe8a1, 0xa81a664b, 0xc24b8b70, 0xc76c51a3, 0xd192e819, 0xd6990624, 0xf40e3585, 0x106aa070,
   0x19a4c116, 0x1e376c08, 0x2748774c, 0x34b0bcb5, 0x391c0cb3, 0x4ed8aa4a, 0x5b9cca4f, 0x682e6ff3,
   0x748f82ee, 0x78a5636f, 0x84c87814, 0x8cc70208, 0x90befffa, 0xa4506ceb, 0xbef9a3f7, 0xc67178f2]

/-- Addition of 32-bit words. -/
def add32 (x y : Nat) : Nat := (x + y) % 2 ^ 32

/-- Rotation to the right of a 32-bit word. -/
def rotr (x n : Nat) : Nat := ((x >>> n) ||| (x <<< (32 - n))) % 2 ^ 32

/-- Choice function of SHA-256; the complement is taken on 32 bits. -/
def ch (x y z : Nat) : Nat := (x &&& y) ^^^ ((2 ^ 32 - 1 - x) &&& z)

/-- Majority function of SHA-256. -/
def maj (x y z : Nat) : Nat := (x &&& y) ^^^ (x &&& z) ^^^ (y &&& z)

def bigSigma0 (x : Nat) : Nat := rotr x 2 ^^^ rotr x 13 ^^^ rotr x 22

def bigSigma1 (x : Nat) : Nat := rotr x 6 ^^^ rotr x 11 ^^^ rotr x 25

def smallSigma0 (x : Nat) : Nat := rotr x 7 ^^^ rotr x 18 ^^^ (x >>> 3)

def smallSigma1 (x : Nat) : Nat := rotr x 17 ^^^ rotr x 19 ^^^ (x >>> 10)

/-- Big-endian bytes of a number, `n` bytes wide. -/
def toBytesBE : Nat → Nat → Bytes
  | 0, _ => []
  | n + 1, x => ((x / 256 ^ n) % 256) :: toBytesBE n x

/-- Big-endian 32-bit words of a byte string (four bytes a word). -/
def toWords : Bytes → List Nat
  | a :: b :: c :: d :: rest =>
      ((((a % 256) * 256 + b % 256) * 256 + c % 256) * 256 + d % 256) :: toWords rest
  | _ => []

/-- Message padding: a one bit, zero bits, and the bit length on 64 bits. -/
def pad (msg : Bytes) : Bytes :=
  msg ++ [0x80] ++ List.replicate ((64 - (msg.length + 9) % 64) % 64) 0
    ++ toBytesBE 8 ((msg.length * 8) % 2 ^ 64)

/-- Message schedule, kept newest first: extends the words by `n` entries. -/
def schedule : Nat → List Nat → List Nat
  | 0, w => w
  | n + 1, w =>
      schedule n
        (add32 (add32 (smallSigma1 (w.getD 1 0)) (w.getD 6 0))
            (add32 (smallSigma0 (w.getD 14 0)) (w.getD 15 0)) :: w)

/-- The eight working variables. -/
structure Vars where
  a : Nat
  b : Nat
  c : Nat
  d : Nat
  e : Nat
  f : Nat
  g : Nat
  h : Nat
deriving DecidableEq, Repr

/-- One round of the compression function. -/
def round (v : Vars) (kw : Nat × Nat) : Vars :=
  let t1 := add32 (add32 (add32 v.h (bigSigma1 v.e)) (add32 (ch v.e v.f v.g) kw.1)) kw.2
  let t2 := add32 (bigSigma0 v.a) (maj v.a v.b v.c)
  { a := add32 t1 t2, b := v.a, c := v.b, d := v.c, e := add32 v.d t1, f := v.e, g := v.f, h := v.g }

/-- Compression of one 16-word block into the chaining value. -/
def compress (hv : Vars) (block : List Nat) : Vars :=
  let w := (schedule 48 block.reverse).reverse
  let v := (K.zip w).foldl round hv
  { a := add32 hv.a v.a, b := add32 hv.b v.b, c := add32 hv.c v.c, d := add32 hv.d v.d,
    e := add32 hv.e v.e, f := add32 hv.f v.f, g := add32 hv.g v.g, h := add32 hv.h v.h }

/-- Runs the compression over the words, sixteen at a time. -/
def blocks : Nat → Vars → List Nat → Vars
  | 0, hv, _ => hv
  | n + 1, hv, ws => blocks n (compress hv (ws.take 16)) (ws.drop 16)

/-- Initial hash value of SHA-256. -/
def initVars : Vars :=
  { a := 0x6a09e667, b := 0xbb67ae85, c := 0x3c6ef372, d := 0xa54ff53a,
    e := 0x510e527f, f := 0x9b05688c, g := 0x1f83d9ab, h := 0x5be0cd19 }

/-- The 32 bytes of the final chaining value. -/
def output (v : Vars) : Bytes :=
  toBytesBE 4 v.a ++ toBytesBE 4 v.b ++ toBytesBE 4 v.c ++ toBytesBE 4 v.d ++
    toBytesBE 4 v.e ++ toBytesBE 4 v.f ++ toBytesBE 4 v.g ++ toBytesBE 4 v.h

/-- SHA-256 digest of a byte string: what `hasher.Sum(nil)` returns after the
content has been written to a fresh `sha256.New()`. -/
def sum (msg : Bytes) : Bytes :=
  let ws := toWords (pad msg)
  output (blocks (ws.length / 16) initVars ws)

end SHA256

/-- The table `hextable` of encoding/hex. -/
def hextable : List Char :=
  ['0', '1', '2', '3', '4', '5', '6', '7', '8', '9', 'a', 'b', 'c', 'd', 'e', 'f']

/-- Lowercase hexadecimal encoding, two characters a byte (`hex.EncodeToString`). -/
def hexEncodeToString (bs : Bytes) : String :=
  String.mk (bs.flatMap fun b => [hextable.getD ((b % 256) / 16) '0', hextable.getD (b % 16) '0'])


/-! ## path/filepath -/

namespace filepath

/-- Joins the non-empty elements with the separator `/` (`filepath.Join` on
Linux and macOS). The lexical cleaning that `Join` applies afterwards leaves
a path without `.`, `..` and doubled separators unchanged and is not modelled. -/
def Join (elem : List String) : String :=
  "/".intercalate (elem.filter fun e => e ≠ "")

end filepath

/-! ## Data model -/

/-- A Go `error` value. -/
structure GoError where
  msg : String
deriving DecidableEq, Repr

/-- Outcome of a Go call: it returns a value or it panics. -/
inductive Exit (α : Type) where
  | returned (a : α)
  | panicked (e : GoError)
deriving DecidableEq, Repr

/-- Modelled from the spec: the classification carried by a
`CommandExecutionError`, whose declaration is outside `chain_of_trust.go`;
the three classes are those of the error taxonomy. -/
inductive TaskUpdateReason where
  | malformedPayload
  | internalError
  | uploadFailure
deriving DecidableEq, Repr

/-- Modelled from the spec: `CommandExecutionError`, declared outside
`chain_of_trust.go`: a cause together with its classification. -/
structure CommandExecutionError where
  Cause : GoError
  Reason : TaskUpdateReason
deriving DecidableEq, Repr

/-- Modelled from the spec: `MalformedPayloadError`, declared outside
`chain_of_trust.go`: wraps an error with the malformed-payload classification. -/
def MalformedPayloadError (err : GoError) : CommandExecutionError :=
  { Cause := err, Reason := TaskUpdateReason.malformedPayload }

/-- The type `packet.PrivateKey` of the OpenPGP library, kept abstract. -/
structure PrivateKey where
  keyId : Nat
deriving DecidableEq, Repr

/-- An `openpgp.Entity`: only its `PrivateKey` pointer is used, `none` is nil. -/
structure Entity where
  PrivateKey : Option PrivateKey
deriving DecidableEq, Repr

structure ArtifactHash where
  SHA256 : String
deriving DecidableEq, Repr

structure CoTEnvironment where
  PublicIPAddress : String
  PrivateIPAddress : String
  InstanceID : String
  InstanceType : String
  Region : String
deriving DecidableEq, Repr

/-- The type `queue.TaskDefinitionResponse` of the queue client, kept opaque. -/
structure TaskDefinitionResponse where
  json : String
deriving DecidableEq, Repr

/-- A Go `map[string]ArtifactHash`: an association list with distinct keys. -/
abbrev ArtifactHashes := List (String × ArtifactHash)

/-- Map assignment `m[k] = v`: replaces the entry of `k` or adds one. -/
def mapSet : ArtifactHashes → String → ArtifactHash → ArtifactHashes
  | [], k, v => [(k, v)]
  | (k', v') :: rest, k, v =>
      if k' = k then (k, v) :: rest else (k', v') :: mapSet rest k v

/-- Map lookup `m[k]`. -/
def mapGet : ArtifactHashes → String → Option ArtifactHash
  | [], _ => none
  | (k', v') :: rest, k => if k' = k then some v' else mapGet rest k

structure ChainOfTrustData where
  Version : Int
  Artifacts : ArtifactHashes
  Task : TaskDefinitionResponse
  TaskID : String
  RunID : Nat
  WorkerGroup : String
  WorkerID : String
  Environment : CoTEnvironment
deriving DecidableEq, Repr

/-- The fields of `S3Artifact` that `chain_of_trust.go` reads. -/
structure S3Artifact where
  Name : String
  Path : String
deriving DecidableEq, Repr

/-- Modelled from the spec: the artifact kinds, declared outside
`chain_of_trust.go`: artifacts backed by on-disk content (`*S3Artifact`), and
the redirect and error-marker artifacts, which are not. -/
inductive Artifact where
  | s3 (a : S3Artifact)
  | redirect (name url : String)
  | error (name message : String)
deriving DecidableEq, Repr

/-- The fields of `TaskRun` that `chain_of_trust.go` reads. -/
structure TaskRun where
  TaskID : String
  RunID : Nat
  Definition : TaskDefinitionResponse
  Artifacts : List Artifact
  ChainOfTrust : Bool
deriving DecidableEq, Repr

structure ChainOfTrustFeature where
  PrivateKey : Option PrivateKey
deriving DecidableEq, Repr

structure ChainOfTrustTaskFeature where
  task : TaskRun
  privKey : Option PrivateKey
deriving DecidableEq, Repr

/-- The fields of the global `config` that `chain_of_trust.go` reads; an IP
address is its byte sequence. -/
structure Config where
  SigningKeyLocation : String
  WorkerGroup : String
  WorkerID : String
  PublicIP : List Nat
  PrivateIP : List Nat
  InstanceID : String
  InstanceType : String
  Region : String
deriving DecidableEq, Repr

/-- The package-level variables read by `chain_of_trust.go`: `config`,
`taskContext.TaskDir` and the constant `logPath`, which is declared elsewhere. -/
structure Globals where
  config : Config
  TaskDir : String
  logPath : String
deriving DecidableEq, Repr

/-- A file opened for reading: its content and, when streaming it fails, the
I/O error that the read returns. -/
structure File where
  content : Bytes
  readError : Option GoError
deriving DecidableEq, Repr

/-- The results of the calls that leave `chain_of_trust.go`: the operating
system, the OpenPGP and JSON libraries, and functions of the worker declared
in other files. `none` is a nil error. -/
structure World where
  osOpen : String → Except GoError File
  readArmoredKeyRing : File → List Entity × Option GoError
  secureSigningKey : Option GoError
  ensureTaskUserCantReadPrivateCotKey : Option GoError
  copyFileContents : String → String → Option GoError
  uploadLog : String → String → Option CommandExecutionError
  ipString : List Nat → String
  marshalIndent : ChainOfTrustData → Except GoError Bytes
  osCreate : String → Option GoError
  clearsignEncode : String → Option PrivateKey → Option GoError
  ioCopy : String → Bytes → Option GoError
  encoderClose : String → Option GoError
  outWrite : String → Bytes → Option GoError

/-- The calls with an effect outside the process, in the order they are made. -/
inductive Event where
  | copyFileContents (src dst : String)
  | uploadLog (name path : String)
  | osOpen (path : String)
  | marshalIndent (cert : ChainOfTrustData)
  | osCreate (path : String)
  | clearsignEncode (path : String)
  | ioCopy (path : String) (plaintext : Bytes)
  | encoderClose (path : String)
  | outWrite (path : String) (bytes : Bytes)
  | outClose (path : String)
deriving DecidableEq, Repr

/-- A finished call: the events it caused and how it ended. -/
structure Run (α : Type) where
  trace : List Event
  exit : Exit α
deriving DecidableEq, Repr

/-! ## chain_of_trust.go -/

def certifiedLogPath : String := filepath.Join ["generic-worker", "certified.log"]

def certifiedLogName : String := "public/logs/certified.log"

def signedCertPath : String := filepath.Join ["generic-worker", "chainOfTrust.json.asc"]

def signedCertName : String := "public/chainOfTrust.json.asc"

/-- The Go runtime panic of an index expression out of range. -/
def indexOutOfRange : GoError := { msg := "runtime error: index out of range" }

/-- Source: `readPrivateKey`. The result pair is `(privateKey, err)`. -/
def readPrivateKey (w : World) (g : Globals) : Exit (Option PrivateKey × Option GoError) :=
  match w.osOpen g.config.SigningKeyLocation with
  | .error err => .returned (none, some err)
  | .ok privKeyFile =>
    match w.readArmoredKeyRing privKeyFile with
    | (_, some err) => .returned (none, some err)
    | (entityList, none) =>
      match entityList with
      | [] => .panicked indexOutOfRange
      | e0 :: _ => .returned (e0.PrivateKey, none)

/-- Source: `ChainOfTrustFeature.Initialise`. Returns the feature after the
call together with `err`. -/
def Initialise (w : World) (g : Globals) (feature : ChainOfTrustFeature) :
    Exit (ChainOfTrustFeature × Option GoError) :=
  match readPrivateKey w g with
  | .panicked e => .panicked e
  | .returned (privateKey, some err) => .returned ({ feature with PrivateKey := privateKey }, some err)
  | .returned (privateKey, none) =>
      .returned ({ feature with PrivateKey := privateKey }, w.secureSigningKey)

/-- Source: `ChainOfTrustFeature.IsEnabled`. -/
def IsEnabled (task : TaskRun) : Bool := task.ChainOfTrust

/-- Source: `ChainOfTrustFeature.NewTaskFeature`. -/
def NewTaskFeature (feature : ChainOfTrustFeature) (task : TaskRun) : ChainOfTrustTaskFeature :=
  { task := task, privKey := feature.PrivateKey }

/-- Source: `ChainOfTrustTaskFeature.ReservedArtifacts`. -/
def ReservedArtifacts (_feature : ChainOfTrustTaskFeature) : List String :=
  [signedCertName, certifiedLogName]

/-- Source: `ChainOfTrustTaskFeature.Start`; `none` is the nil result. -/
def Start (w : World) (_cot : ChainOfTrustTaskFeature) : Option CommandExecutionError :=
  match w.ensureTaskUserCantReadPrivateCotKey with
  | some err => some (MalformedPayloadError err)
  | none => none

/-- Source: `calculateHash`. The result pair is `(hash, err)`. -/
def calculateHash (w : World) (g : Globals) (artifact : S3Artifact) :
    Run (String × Option GoError) :=
  let rawContentFile := filepath.Join [g.TaskDir, artifact.Path]
  match w.osOpen rawContentFile with
  | .error err => { trace := [Event.osOpen rawContentFile], exit := .returned ("", some err) }
  | .ok rawContent =>
    match rawContent.readError with
    | some err => { trace := [Event.osOpen rawContentFile], exit := .panicked err }
    | none =>
        { trace := [Event.osOpen rawContentFile],
          exit := .returned (hexEncodeToString (SHA256.sum rawContent.content), none) }

/-- Source: the loop of `Stop` over `cot.task.Artifacts` (lines 148-160),
started with the map built so far. -/
def hashArtifacts (w : World) (g : Globals) :
    List Artifact → ArtifactHashes → Run ArtifactHashes
  | [], artifactHashes => { trace := [], exit := .returned artifactHashes }
  | Artifact.s3 a :: rest, artifactHashes =>
    match calculateHash w g a with
    | { trace := t, exit := .panicked e } => { trace := t, exit := .panicked e }
    | { trace := t, exit := .returned (_, some err) } => { trace := t, exit := .panicked err }
    | { trace := t, exit := .returned (hash, none) } =>
        let r := hashArtifacts w g rest (mapSet artifactHashes a.Name { SHA256 := hash })
        { trace := t ++ r.trace, exit := r.exit }
  | _ :: rest, artifactHashes => hashArtifacts w g rest artifactHashes

/-- Source: the value `cotCert` built by `Stop` (lines 162-177). -/
def cotCert (w : World) (g : Globals) (cot : ChainOfTrustTaskFeature)
    (artifactHashes : ArtifactHashes) : ChainOfTrustData :=
  { Version := 1
    Artifacts := artifactHashes
    Task := cot.task.Definition
    TaskID := cot.task.TaskID
    RunID := cot.task.RunID
    WorkerGroup := g.config.WorkerGroup
    WorkerID := g.config.WorkerID
    Environment :=
      { PublicIPAddress := w.ipString g.config.PublicIP
        PrivateIPAddress := w.ipString g.config.PrivateIP
        InstanceID := g.config.InstanceID
        InstanceType := g.config.InstanceType
        Region := g.config.Region } }

/-- Source: `ChainOfTrustTaskFeature.Stop`, from `os.Create` on (lines
187-208). The results of `w.Close()`, `out.Write` and `out.Close()` are
dropped by the source; the deferred `out.Close()` runs on every exit. -/
def signAndUpload (w : World) (signedCert : String) (cot : ChainOfTrustTaskFeature)
    (certBytes : Bytes) : Run (Option CommandExecutionError) :=
  match w.osCreate signedCert with
  | some e => { trace := [Event.osCreate signedCert], exit := .panicked e }
  | none =>
    match w.clearsignEncode signedCert cot.privKey with
    | some e =>
        { trace := [Event.osCreate signedCert, Event.clearsignEncode signedCert,
            Event.outClose signedCert],
          exit := .panicked e }
    | none =>
      match w.ioCopy signedCert certBytes with
      | some e =>
          { trace := [Event.osCreate signedCert, Event.clearsignEncode signedCert,
              Event.ioCopy signedCert certBytes, Event.outClose signedCert],
            exit := .panicked e }
      | none =>
          let _ := w.encoderClose signedCert
          let _ := w.outWrite signedCert [10]
          { trace := [Event.osCreate signedCert, Event.clearsignEncode signedCert,
              Event.ioCopy signedCert certBytes, Event.encoderClose signedCert,
              Event.outWrite signedCert [10], Event.outClose signedCert,
              Event.uploadLog signedCertName signedCertPath, Event.outClose signedCert],
            exit := .returned (w.uploadLog signedCertName signedCertPath) }

/-- Source: `ChainOfTrustTaskFeature.Stop`; `returned none` is the nil result. -/
def Stop (w : World) (g : Globals) (cot : ChainOfTrustTaskFeature) :
    Run (Option CommandExecutionError) :=
  let logFile := filepath.Join [g.TaskDir, g.logPath]
  let certifiedLogFile := filepath.Join [g.TaskDir, certifiedLogPath]
  let signedCert := filepath.Join [g.TaskDir, signedCertPath]
  match w.copyFileContents logFile certifiedLogFile with
  | some e => { trace := [Event.copyFileContents logFile certifiedLogFile], exit := .panicked e }
  | none =>
    match w.uploadLog certifiedLogName certifiedLogPath with
    | some err =>
        { trace := [Event.copyFileContents logFile certifiedLogFile,
            Event.uploadLog certifiedLogName certifiedLogPath],
          exit := .returned (some err) }
    | none =>
      match hashArtifacts w g cot.task.Artifacts [] with
      | { trace := th, exit := .panicked e } =>
          { trace := [Event.copyFileContents logFile certifiedLogFile,
              Event.uploadLog certifiedLogName certifiedLogPath] ++ th,
            exit := .panicked e }
      | { trace := th, exit := .returned artifactHashes } =>
        match w.marshalIndent (cotCert w g cot artifactHashes) with
        | .error e =>
            { trace := [Event.copyFileContents logFile certifiedLogFile,
                Event.uploadLog certifiedLogName certifiedLogPath] ++ th ++
                [Event.marshalIndent (cotCert w g cot artifactHashes)],
              exit := .panicked e }
        | .ok certBytes =>
            let r := signAndUpload w signedCert cot (certBytes ++ [10])
            { trace := [Event.copyFileContents logFile certifiedLogFile,
                Event.uploadLog certifiedLogName certifiedLogPath] ++ th ++
                [Event.marshalIndent (cotCert w g cot artifactHashes)] ++ r.trace,
              exit := r.exit }

/-! ## Concrete runs -/

/-- A world in which every call succeeds and every file holds `hello`. -/
def calmWorld : World :=
  { osOpen := fun _ => .ok { content := [104, 101, 108, 108, 111], readError := none }
    readArmoredKeyRing := fun _ => ([{ PrivateKey := some { keyId := 7 } }], none)
    secureSigningKey := none
    ensureTaskUserCantReadPrivateCotKey := none
    copyFileContents := fun _ _ => none
    uploadLog := fun _ _ => none
    ipString := fun _ => "10.0.0.1"
    marshalIndent := fun _ => .ok [123, 125]
    osCreate := fun _ => none
    clearsignEncode := fun _ _ => none
    ioCopy := fun _ _ => none
    encoderClose := fun _ => none
    outWrite := fun _ _ => none }

def sampleGlobals : Globals :=
  { config :=
      { SigningKeyLocation := "/etc/cot.key", WorkerGroup := "us-west-2", WorkerID := "i-0a1",
        PublicIP := [12, 34, 56, 78], PrivateIP := [10, 0, 0, 1], InstanceID := "i-0a1",
        InstanceType := "m3.large", Region := "us-west-2" }
    TaskDir := "/task"
    logPath := "generic-worker/live_backing.log" }

/-- A run with one file artifact `out.txt` and one redirect artifact. -/
def sampleFeature : ChainOfTrustTaskFeature :=
  { task :=
      { TaskID := "T1", RunID := 0, Definition := { json := "\x7b\x7d" },
        Artifacts := [Artifact.s3 { Name := "out.txt", Path := "out.txt" },
          Artifact.redirect "public/link" "https://example.com"],
        ChainOfTrust := true }
    privKey := some { keyId := 7 } }

/-- The log upload succeeds but no artifact file can be opened. -/
def brokenDiskWorld : World :=
  { calmWorld with osOpen := fun _ => .error { msg := "no such file or directory" } }

/-- Closing the clearsign encoder, which emits the signature block, fails. -/
def signFailWorld : World :=
  { calmWorld with encoderClose := fun _ => some { msg := "signing failed" } }

/-- The key file parses to an empty key ring without an error. -/
def emptyKeyRingWorld : World :=
  { calmWorld with readArmoredKeyRing := fun _ => ([], none) }

/-- The upload of the signed certificate fails. -/
def certUploadFailWorld : World :=
  { calmWorld with
    uploadLog := fun name _ =>
      if name = "public/chainOfTrust.json.asc" then
        some { Cause := { msg := "503" }, Reason := TaskUpdateReason.uploadFailure }
      else none }

/-- The file `a.txt` holds `hello`, every other file is empty. -/
def twoFilesWorld : World :=
  { calmWorld with
    osOpen := fun p =>
      if p = "/task/a.txt" then .ok { content := [104, 101, 108, 108, 111], readError := none }
      else .ok { content := [], readError := none } }

/-- A run with two file artifacts published under the same name. -/
def sameNameFeature : ChainOfTrustTaskFeature :=
  { task :=
      { TaskID := "T2", RunID := 0, Definition := { json := "\x7b\x7d" },
        Artifacts := [Artifact.s3 { Name := "out.txt", Path := "a.txt" },
          Artifact.s3 { Name := "out.txt", Path := "b.txt" }],
        ChainOfTrust := true }
    privKey := some { keyId := 7 } }

/-! ## Observations on a run -/

/-- The uploads of a trace, as pairs of artifact name and run-relative path. -/
def uploads : List Event → List (String × String)
  | [] => []
  | Event.uploadLog name path :: rest => (name, path) :: uploads rest
  | _ :: rest => uploads rest

/-- The steps of `Stop` whose failure the source checks all succeed: the log
copy, the hashing of every artifact, the serialization, the creation of the
output file, the opening of the encoder and the copy of the document into it. -/
def checkedStepsSucceed (w : World) (g : Globals) (cot : ChainOfTrustTaskFeature) : Prop :=
  w.copyFileContents (filepath.Join [g.TaskDir, g.logPath])
      (filepath.Join [g.TaskDir, certifiedLogPath]) = none ∧
  ∃ artifactHashes certBytes,
    (hashArtifacts w g cot.task.Artifacts []).exit = .returned artifactHashes ∧
    w.marshalIndent (cotCert w g cot artifactHashes) = .ok certBytes ∧
    w.osCreate (filepath.Join [g.TaskDir, signedCertPath]) = none ∧
    w.clearsignEncode (filepath.Join [g.TaskDir, signedCertPath]) cot.privKey = none ∧
    w.ioCopy (filepath.Join [g.TaskDir, signedCertPath]) (certBytes ++ [10]) = none

/-- Every local step of `Stop` succeeds, those included whose result the
source drops. -/
def localStepsSucceed (w : World) (g : Globals) (cot : ChainOfTrustTaskFeature) : Prop :=
  checkedStepsSucceed w g cot ∧
  w.encoderClose (filepath.Join [g.TaskDir, signedCertPath]) = none ∧
  w.outWrite (filepath.Join [g.TaskDir, signedCertPath]) [10] = none

/-- The `*S3Artifact` elements of an artifact list, in order. -/
def s3Artifacts : List Artifact → List S3Artifact
  | [] => []
  | Artifact.s3 a :: rest => a :: s3Artifacts rest
  | _ :: rest => s3Artifacts rest

/-- The on-disk file of the artifact is readable with content `C`. -/
def readable (w : World) (g : Globals) (a : S3Artifact) (C : Bytes) : Prop :=
  w.osOpen (filepath.Join [g.TaskDir, a.Path]) = .ok { content := C, readError := none }

/-- Hashing the artifact fails: its file cannot be opened, or an I/O error
occurs while it is streamed into the hasher. -/
def hashingFails (w : World) (g : Globals) (a : S3Artifact) : Prop :=
  (∃ err, w.osOpen (filepath.Join [g.TaskDir, a.Path]) = .error err) ∨
  (∃ f err, w.osOpen (filepath.Join [g.TaskDir, a.Path]) = .ok f ∧ f.readError = some err)

/-! ## Lemmas -/

theorem uploads_append (s t : List Event) : uploads (s ++ t) = uploads s ++ uploads t := by
  induction s with
  | nil => rfl
  | cons ev s ih => cases ev <;> simp [uploads, ih]

theorem mem_uploads (tr : List Event) (name path : String) :
    (name, path) ∈ uploads tr ↔ Event.uploadLog name path ∈ tr := by
  induction tr with
  | nil => simp [uploads]
  | cons ev tr ih => cases ev <;> simp [uploads, ih]

theorem calculateHash_trace (w : World) (g : Globals) (a : S3Artifact) :
    (calculateHash w g a).trace = [Event.osOpen (filepath.Join [g.TaskDir, a.Path])] := by
  unfold calculateHash
  simp only []
  split
  · rfl
  · split <;> rfl

/-- The hashing loop only opens files. -/
theorem hashArtifacts_trace (w : World) (g : Globals) (arts : List Artifact) :
    ∀ (m : ArtifactHashes) (ev : Event), ev ∈ (hashArtifacts w g arts m).trace →
      ∃ p, ev = Event.osOpen p := by
  induction arts with
  | nil => intro m ev h; simp [hashArtifacts] at h
  | cons a rest ih =>
    intro m ev h
    cases a with
    | s3 a =>
      have ht := calculateHash_trace w g a
      unfold hashArtifacts at h
      split at h
      · next t e heq => rw [heq] at ht; simp only at ht h; subst ht; exact ⟨_, by simpa using h⟩
      · next t x err heq => rw [heq] at ht; simp only at ht h; subst ht; exact ⟨_, by simpa using h⟩
      · next t hash heq =>
        rw [heq] at ht
        simp only at ht h
        subst ht
        rcases List.mem_append.1 h with h1 | h2
        · exact ⟨_, by simpa using h1⟩
        · exact ih _ ev h2
    | redirect n u => exact ih m ev (by simpa [hashArtifacts] using h)
    | error n u => exact ih m ev (by simpa [hashArtifacts] using h)

theorem hashArtifacts_uploads (w : World) (g : Globals) (arts : List Artifact)
    (m : ArtifactHashes) : uploads (hashArtifacts w g arts m).trace = [] := by
  have h := hashArtifacts_trace w g arts m
  generalize (hashArtifacts w g arts m).trace = tr at h
  induction tr with
  | nil => rfl
  | cons ev tr ih =>
    obtain ⟨p, hp⟩ := h ev (by simp)
    subst hp
    simpa [uploads] using ih (fun ev hev => h ev (by simp [hev]))

/-! ### The exits of `Stop`, one lemma a path -/

theorem Stop_copy_failed (w : World) (g : Globals) (cot : ChainOfTrustTaskFeature) (e : GoError)
    (h1 : w.copyFileContents (filepath.Join [g.TaskDir, g.logPath])
      (filepath.Join [g.TaskDir, certifiedLogPath]) = some e) :
    Stop w g cot =
      { trace := [Event.copyFileContents (filepath.Join [g.TaskDir, g.logPath])
          (filepath.Join [g.TaskDir, certifiedLogPath])],
        exit := .panicked e } := by
  simp only [Stop, h1]

theorem Stop_log_upload_failed (w : World) (g : Globals) (cot : ChainOfTrustTaskFeature)
    (err : CommandExecutionError)
    (h1 : w.copyFileContents (filepath.Join [g.TaskDir, g.logPath])
      (filepath.Join [g.TaskDir, certifiedLogPath]) = none)
    (h2 : w.uploadLog certifiedLogName certifiedLogPath = some err) :
    Stop w g cot =
      { trace := [Event.copyFileContents (filepath.Join [g.TaskDir, g.logPath])
          (filepath.Join [g.TaskDir, certifiedLogPath]),
          Event.uploadLog certifiedLogName certifiedLogPath],
        exit := .returned (some err) } := by
  simp only [Stop, h1, h2]

theorem Stop_hash_panicked (w : World) (g : Globals) (cot : ChainOfTrustTaskFeature)
    (th : List Event) (e : GoError)
    (h1 : w.copyFileContents (filepath.Join [g.TaskDir, g.logPath])
      (filepath.Join [g.TaskDir, certifiedLogPath]) = none)
    (h2 : w.uploadLog certifiedLogName certifiedLogPath = none)
    (h3 : hashArtifacts w g cot.task.Artifacts [] = { trace := th, exit := .panicked e }) :
    Stop w g cot =
      { trace := [Event.copyFileContents (filepath.Join [g.TaskDir, g.logPath])
          (filepath.Join [g.TaskDir, certifiedLogPath]),
          Event.uploadLog certifiedLogName certifiedLogPath] ++ th,
        exit := .panicked e } := by
  simp only [Stop, h1, h2, h3]

theorem Stop_marshal_failed (w : World) (g : Globals) (cot : ChainOfTrustTaskFeature)
    (th : List Event) (m : ArtifactHashes) (e : GoError)
    (h1 : w.copyFileContents (filepath.Join [g.TaskDir, g.logPath])
      (filepath.Join [g.TaskDir, certifiedLogPath]) = none)
    (h2 : w.uploadLog certifiedLogName certifiedLogPath = none)
    (h3 : hashArtifacts w g cot.task.Artifacts [] = { trace := th, exit := .returned m })
    (h4 : w.marshalIndent (cotCert w g cot m) = .error e) :
    Stop w g cot =
      { trace := [Event.copyFileContents (filepath.Join [g.TaskDir, g.logPath])
          (filepath.Join [g.TaskDir, certifiedLogPath]),
          Event.uploadLog certifiedLogName certifiedLogPath] ++ th ++
          [Event.marshalIndent (cotCert w g cot m)],
        exit := .panicked e } := by
  simp only [Stop, h1, h2, h3, h4]

theorem Stop_marshalled (w : World) (g : Globals) (cot : ChainOfTrustTaskFeature)
    (th : List Event) (m : ArtifactHashes) (certBytes : Bytes)
    (h1 : w.copyFileContents (filepath.Join [g.TaskDir, g.logPath])
      (filepath.Join [g.TaskDir, certifiedLogPath]) = none)
    (h2 : w.uploadLog certifiedLogName certifiedLogPath = none)
    (h3 : hashArtifacts w g cot.task.Artifacts [] = { trace := th, exit := .returned m })
    (h4 : w.marshalIndent (cotCert w g cot m) = .ok certBytes) :
    Stop w g cot =
      { trace := [Event.copyFileContents (filepath.Join [g.TaskDir, g.logPath])
          (filepath.Join [g.TaskDir, certifiedLogPath]),
          Event.uploadLog certifiedLogName certifiedLogPath] ++ th ++
          [Event.marshalIndent (cotCert w g cot m)] ++
          (signAndUpload w (filepath.Join [g.TaskDir, signedCertPath]) cot
            (certBytes ++ [10])).trace,
        exit := (signAndUpload w (filepath.Join [g.TaskDir, signedCertPath]) cot
            (certBytes ++ [10])).exit } := by
  simp only [Stop, h1, h2, h3, h4]

/-- The uploads of the signing part: none when a checked step fails, the
signed certificate otherwise. -/
theorem signAndUpload_uploads (w : World) (signedCert : String) (cot : ChainOfTrustTaskFeature)
    (certBytes : Bytes) :
    (uploads (signAndUpload w signedCert cot certBytes).trace = [] ∧
      (∃ e, (signAndUpload w signedCert cot certBytes).exit = .panicked e) ∧
      ¬ (w.osCreate signedCert = none ∧ w.clearsignEncode signedCert cot.privKey = none ∧
        w.ioCopy signedCert certBytes = none)) ∨
    (uploads (signAndUpload w signedCert cot certBytes).trace = [(signedCertName, signedCertPath)] ∧
      (signAndUpload w signedCert cot certBytes).exit =
        .returned (w.uploadLog signedCertName signedCertPath) ∧
      w.osCreate signedCert = none ∧ w.clearsignEncode signedCert cot.privKey = none ∧
      w.ioCopy signedCert certBytes = none) := by
  unfold signAndUpload
  cases h5 : w.osCreate signedCert with
  | some e => exact Or.inl ⟨rfl, ⟨e, rfl⟩, by simp⟩
  | none =>
    cases h6 : w.clearsignEncode signedCert cot.privKey with
    | some e => exact Or.inl ⟨rfl, ⟨e, rfl⟩, by simp⟩
    | none =>
      cases h7 : w.ioCopy signedCert certBytes with
      | some e => exact Or.inl ⟨rfl, ⟨e, rfl⟩, by simp⟩
      | none => exact Or.inr ⟨rfl, rfl, rfl, rfl, rfl⟩

/-- The four ways a run of `Stop` ends, with what it has uploaded by then. -/
theorem Stop_shape (w : World) (g : Globals) (cot : ChainOfTrustTaskFeature) :
    (∃ e, w.copyFileContents (filepath.Join [g.TaskDir, g.logPath])
          (filepath.Join [g.TaskDir, certifiedLogPath]) = some e ∧
        uploads (Stop w g cot).trace = [] ∧ (Stop w g cot).exit = .panicked e) ∨
    (∃ err, w.copyFileContents (filepath.Join [g.TaskDir, g.logPath])
          (filepath.Join [g.TaskDir, certifiedLogPath]) = none ∧
        w.uploadLog certifiedLogName certifiedLogPath = some err ∧
        uploads (Stop w g cot).trace = [(certifiedLogName, certifiedLogPath)] ∧
        (Stop w g cot).exit = .returned (some err)) ∨
    (∃ e, w.uploadLog certifiedLogName certifiedLogPath = none ∧
        ¬ checkedStepsSucceed w g cot ∧
        uploads (Stop w g cot).trace = [(certifiedLogName, certifiedLogPath)] ∧
        (Stop w g cot).exit = .panicked e) ∨
    (w.uploadLog certifiedLogName certifiedLogPath = none ∧
        checkedStepsSucceed w g cot ∧
        uploads (Stop w g cot).trace =
          [(certifiedLogName, certifiedLogPath), (signedCertName, signedCertPath)] ∧
        (Stop w g cot).exit = .returned (w.uploadLog signedCertName signedCertPath)) := by
  cases h1 : w.copyFileContents (filepath.Join [g.TaskDir, g.logPath])
      (filepath.Join [g.TaskDir, certifiedLogPath]) with
  | some e =>
    refine Or.inl ⟨e, rfl, ?_, ?_⟩
    · rw [Stop_copy_failed w g cot e h1]
      rfl
    · rw [Stop_copy_failed w g cot e h1]
  | none =>
    cases h2 : w.uploadLog certifiedLogName certifiedLogPath with
    | some err =>
      refine Or.inr (Or.inl ⟨err, rfl, rfl, ?_, ?_⟩)
      · rw [Stop_log_upload_failed w g cot err h1 h2]
        rfl
      · rw [Stop_log_upload_failed w g cot err h1 h2]
    | none =>
      rcases h3 : hashArtifacts w g cot.task.Artifacts [] with ⟨th, m | e⟩
      · have hth : uploads th = [] := by
          have := hashArtifacts_uploads w g cot.task.Artifacts []
          rw [h3] at this
          exact this
        cases h4 : w.marshalIndent (cotCert w g cot m) with
        | error e =>
          refine Or.inr (Or.inr (Or.inl ⟨e, rfl, ?_, ?_, ?_⟩))
          · rintro ⟨-, m', b, hm, hb, -⟩
            rw [h3] at hm
            cases hm
            rw [h4] at hb
            cases hb
          · rw [Stop_marshal_failed w g cot th m e h1 h2 h3 h4]
            simp [uploads_append, hth, uploads]
          · rw [Stop_marshal_failed w g cot th m e h1 h2 h3 h4]
        | ok certBytes =>
          rw [Stop_marshalled w g cot th m certBytes h1 h2 h3 h4]
          rcases signAndUpload_uploads w (filepath.Join [g.TaskDir, signedCertPath]) cot
            (certBytes ++ [10]) with ⟨hu, ⟨e, he⟩, hn⟩ | ⟨hu, he, h5, h6, h7⟩
          · refine Or.inr (Or.inr (Or.inl ⟨e, rfl, ?_, ?_, he⟩))
            · rintro ⟨-, m', b, hm, hb, hc⟩
              rw [h3] at hm
              cases hm
              rw [h4] at hb
              cases hb
              exact hn hc
            · simp [uploads_append, hth, hu, uploads]
          · refine Or.inr (Or.inr (Or.inr ⟨rfl, ⟨h1, m, certBytes, ?_, h4, h5, h6, h7⟩, ?_, he⟩))
            · rw [h3]
            · simp [uploads_append, hth, hu, uploads]
      · have hth : uploads th = [] := by
          have := hashArtifacts_uploads w g cot.task.Artifacts []
          rw [h3] at this
          exact this
        refine Or.inr (Or.inr (Or.inl ⟨e, rfl, ?_, ?_, ?_⟩))
        · rintro ⟨-, m', b, hm, -⟩
          rw [h3] at hm
          cases hm
        · rw [Stop_hash_panicked w g cot th e h1 h2 h3]
          simp [uploads_append, hth, uploads]
        · rw [Stop_hash_panicked w g cot th e h1 h2 h3]

/-! ## Publication by `Stop` -/

/-- C1, as stated, fails: when no artifact file can be opened, `Stop` has
already uploaded the certified log and then panics, so exactly one of the two
artifacts is uploaded. -/
theorem Stop_uploads_log_alone :
    uploads (Stop brokenDiskWorld sampleGlobals sampleFeature).trace =
        [("public/logs/certified.log", "generic-worker/certified.log")] ∧
      (Stop brokenDiskWorld sampleGlobals sampleFeature).exit =
        .panicked { msg := "no such file or directory" } ∧
      ¬ (uploads (Stop brokenDiskWorld sampleGlobals sampleFeature).trace = [] ∨
        (("public/logs/certified.log", "generic-worker/certified.log") ∈
            uploads (Stop brokenDiskWorld sampleGlobals sampleFeature).trace ∧
          ("public/chainOfTrust.json.asc", "generic-worker/chainOfTrust.json.asc") ∈
            uploads (Stop brokenDiskWorld sampleGlobals sampleFeature).trace)) := by
  decide

/-- C1, amended: the uploads of `Stop` are, in this order, nothing, the
certified log alone, or the certified log and then the signed certificate;
the signed certificate is uploaded only after the upload of the certified log
returned nil and every checked local step succeeded. -/
theorem Stop_uploads_log_before_certificate (w : World) (g : Globals)
    (cot : ChainOfTrustTaskFeature) :
    (uploads (Stop w g cot).trace = [] ∨
      uploads (Stop w g cot).trace = [(certifiedLogName, certifiedLogPath)] ∨
      uploads (Stop w g cot).trace =
        [(certifiedLogName, certifiedLogPath), (signedCertName, signedCertPath)]) ∧
    ((signedCertName, signedCertPath) ∈ uploads (Stop w g cot).trace →
      w.uploadLog certifiedLogName certifiedLogPath = none ∧ checkedStepsSucceed w g cot) := by
  have hne : (signedCertName, signedCertPath) ≠ (certifiedLogName, certifiedLogPath) := by decide
  rcases Stop_shape w g cot with ⟨e, -, hu, -⟩ | ⟨err, -, -, hu, -⟩ | ⟨e, -, -, hu, -⟩ |
    ⟨h2, hc, hu, -⟩
  · exact ⟨Or.inl hu, by simp [hu]⟩
  · exact ⟨Or.inr (Or.inl hu), by simp [hu, hne]⟩
  · exact ⟨Or.inr (Or.inl hu), by simp [hu, hne]⟩
  · exact ⟨Or.inr (Or.inr hu), fun _ => ⟨h2, hc⟩⟩

/-- C2, at the failing input: closing the clearsign encoder fails, and `Stop`
still uploads `public/chainOfTrust.json.asc` and returns nil. -/
theorem Stop_ignores_failed_encoder_close :
    signFailWorld.encoderClose (filepath.Join [sampleGlobals.TaskDir, signedCertPath]) =
        some { msg := "signing failed" } ∧
      ("public/chainOfTrust.json.asc", "generic-worker/chainOfTrust.json.asc") ∈
        uploads (Stop signFailWorld sampleGlobals sampleFeature).trace ∧
      (Stop signFailWorld sampleGlobals sampleFeature).exit = .returned none := by
  decide!

/-! ## The start guard -/

/-- C3: `Start` returns the malformed-payload error wrapping the error of the
key-readability check exactly when the check reports that error, and nil
exactly when the check reports none. -/
theorem Start_fails_closed (w : World) (cot : ChainOfTrustTaskFeature) :
    (∀ err, Start w cot = some (MalformedPayloadError err) ↔
      w.ensureTaskUserCantReadPrivateCotKey = some err) ∧
    (Start w cot = none ↔ w.ensureTaskUserCantReadPrivateCotKey = none) ∧
    (∀ err, (MalformedPayloadError err).Reason = TaskUpdateReason.malformedPayload ∧
      (MalformedPayloadError err).Cause = err) := by
  unfold Start MalformedPayloadError
  cases w.ensureTaskUserCantReadPrivateCotKey <;> simp

/-! ## Reserved names -/

/-- C8: `ReservedArtifacts` is the two fixed names whatever the task, every
upload of `Stop` is one of them at its run-relative path, and a run that
returns nil has uploaded both. -/
theorem ReservedArtifacts_are_the_upload_names (w : World) (g : Globals)
    (cot : ChainOfTrustTaskFeature) :
    ReservedArtifacts cot = ["public/chainOfTrust.json.asc", "public/logs/certified.log"] ∧
    (∀ name path, (name, path) ∈ uploads (Stop w g cot).trace →
      (name, path) = ("public/logs/certified.log", "generic-worker/certified.log") ∨
      (name, path) = ("public/chainOfTrust.json.asc", "generic-worker/chainOfTrust.json.asc")) ∧
    ((Stop w g cot).exit = .returned none →
      uploads (Stop w g cot).trace =
        [("public/logs/certified.log", "generic-worker/certified.log"),
          ("public/chainOfTrust.json.asc", "generic-worker/chainOfTrust.json.asc")]) := by
  have hl : (certifiedLogName, certifiedLogPath) =
      ("public/logs/certified.log", "generic-worker/certified.log") := by decide
  have hc : (signedCertName, signedCertPath) =
      ("public/chainOfTrust.json.asc", "generic-worker/chainOfTrust.json.asc") := by decide
  refine ⟨rfl, ?_, ?_⟩
  · intro name path hmem
    rcases Stop_shape w g cot with ⟨e, -, hu, -⟩ | ⟨err, -, -, hu, -⟩ | ⟨e, -, -, hu, -⟩ |
      ⟨-, -, hu, -⟩ <;> rw [hu] at hmem
    · simp at hmem
    · rw [hl] at hmem
      exact Or.inl (List.mem_singleton.1 hmem)
    · rw [hl] at hmem
      exact Or.inl (List.mem_singleton.1 hmem)
    · rw [hl, hc] at hmem
      rcases List.mem_cons.1 hmem with h | h
      · exact Or.inl h
      · exact Or.inr (List.mem_singleton.1 h)
  · intro hexit
    rcases Stop_shape w g cot with ⟨e, -, -, he⟩ | ⟨err, -, -, -, he⟩ | ⟨e, -, -, -, he⟩ |
      ⟨-, -, hu, -⟩
    · rw [he] at hexit; cases hexit
    · rw [he] at hexit; cases hexit
    · rw [he] at hexit; cases hexit
    · rw [hu, hl, hc]

/-! ## Upload failures -/

/-- C9: when every local step succeeds, a failed upload of the certified log
is returned and the signed certificate is not uploaded, a failed upload of the
signed certificate is returned, and nil is returned exactly when both uploads
returned nil. -/
theorem Stop_returns_upload_failures (w : World) (g : Globals) (cot : ChainOfTrustTaskFeature)
    (h : localStepsSucceed w g cot) :
    (∀ e, w.uploadLog certifiedLogName certifiedLogPath = some e →
      (Stop w g cot).exit = .returned (some e) ∧
      (signedCertName, signedCertPath) ∉ uploads (Stop w g cot).trace) ∧
    (∀ e, w.uploadLog certifiedLogName certifiedLogPath = none →
      w.uploadLog signedCertName signedCertPath = some e →
      (Stop w g cot).exit = .returned (some e)) ∧
    ((Stop w g cot).exit = .returned none ↔
      w.uploadLog certifiedLogName certifiedLogPath = none ∧
      w.uploadLog signedCertName signedCertPath = none) := by
  have hne : (signedCertName, signedCertPath) ≠ (certifiedLogName, certifiedLogPath) := by decide
  obtain ⟨hchk, -, -⟩ := h
  have hcopy := hchk.1
  rcases Stop_shape w g cot with ⟨e, h1, -, -⟩ | ⟨err, -, h2, hu, he⟩ | ⟨e, -, hn, -, -⟩ |
    ⟨h2, -, hu, he⟩
  · rw [hcopy] at h1; cases h1
  · refine ⟨?_, ?_, ?_⟩
    · intro e hfail
      rw [h2] at hfail
      cases hfail
      exact ⟨he, by simp [hu, hne]⟩
    · intro e hok
      rw [h2] at hok
      cases hok
    · rw [he, h2]
      simp
  · exact absurd hchk hn
  · refine ⟨?_, ?_, ?_⟩
    · intro e hfail
      rw [h2] at hfail
      cases hfail
    · intro e _ hfail
      rw [he, hfail]
    · rw [he, h2]
      simp

/-- C9 at a run whose local steps all succeed and whose upload of the signed
certificate fails. -/
theorem Stop_returns_upload_failures_witness :
    localStepsSucceed certUploadFailWorld sampleGlobals sampleFeature ∧
    (Stop certUploadFailWorld sampleGlobals sampleFeature).exit =
      .returned (some { Cause := { msg := "503" }, Reason := TaskUpdateReason.uploadFailure }) :=
  have h : localStepsSucceed certUploadFailWorld sampleGlobals sampleFeature :=
    ⟨⟨rfl, [("out.txt",
        { SHA256 := "2cf24dba5fb0a30e26e83b2ac5b9e29e1b161e5c1fa7425e73043362938b9824" })],
      [123, 125], by decide!, rfl, rfl, rfl, rfl⟩, rfl, rfl⟩
  ⟨h, (Stop_returns_upload_failures certUploadFailWorld sampleGlobals sampleFeature h).2.1
    { Cause := { msg := "503" }, Reason := TaskUpdateReason.uploadFailure } rfl rfl⟩

/-! ## Key loading -/

/-- C10, at the failing input: the key file opens and parses without an error
to an empty key ring, and `readPrivateKey` panics on the index expression
`entityList[0]` instead of returning. -/
theorem readPrivateKey_panics_on_empty_key_ring :
    emptyKeyRingWorld.osOpen sampleGlobals.config.SigningKeyLocation =
        .ok { content := [104, 101, 108, 108, 111], readError := none } ∧
      emptyKeyRingWorld.readArmoredKeyRing
        { content := [104, 101, 108, 108, 111], readError := none } = ([], none) ∧
      readPrivateKey emptyKeyRingWorld sampleGlobals =
        .panicked { msg := "runtime error: index out of range" } := by
  refine ⟨rfl, rfl, rfl⟩

/-! ## Lemmas on the digest map and the hashing loop -/

theorem mapGet_mapSet (m : ArtifactHashes) (k k' : String) (v : ArtifactHash) :
    mapGet (mapSet m k v) k' = if k = k' then some v else mapGet m k' := by
  induction m with
  | nil => simp [mapSet, mapGet]
  | cons kv rest ih =>
    obtain ⟨k0, v0⟩ := kv
    by_cases h0 : k0 = k
    · subst h0
      by_cases h1 : k0 = k' <;> simp [mapSet, mapGet, h1]
    · by_cases h1 : k0 = k'
      · subst h1
        have : ¬ k = k0 := fun h => h0 h.symm
        simp [mapSet, mapGet, h0, this]
      · simp [mapSet, mapGet, h0, h1, ih]

theorem keys_mapSet (m : ArtifactHashes) (k : String) (v : ArtifactHash)
    (hk : k ∉ m.map Prod.fst) : (mapSet m k v).map Prod.fst = m.map Prod.fst ++ [k] := by
  induction m with
  | nil => simp [mapSet]
  | cons kv rest ih =>
    obtain ⟨k0, v0⟩ := kv
    simp only [List.map_cons, List.mem_cons, not_or] at hk
    have h0 : ¬ k0 = k := fun h => hk.1 h.symm
    simp [mapSet, h0, ih hk.2]

theorem calculateHash_readable (w : World) (g : Globals) (a : S3Artifact) (C : Bytes)
    (h : readable w g a C) :
    (calculateHash w g a).exit = .returned (hexEncodeToString (SHA256.sum C), none) := by
  unfold readable at h
  simp only [calculateHash, h]

theorem calculateHash_fails (w : World) (g : Globals) (a : S3Artifact)
    (h : hashingFails w g a) (hash : String) :
    (calculateHash w g a).exit ≠ .returned (hash, none) := by
  rcases h with ⟨err, h⟩ | ⟨f, err, h, hr⟩
  · simp [calculateHash, h]
  · simp [calculateHash, h, hr]

theorem hashArtifacts_cons_ok (w : World) (g : Globals) (a : S3Artifact) (rest : List Artifact)
    (m : ArtifactHashes) (hash : String)
    (h : (calculateHash w g a).exit = .returned (hash, none)) :
    (hashArtifacts w g (Artifact.s3 a :: rest) m).exit =
      (hashArtifacts w g rest (mapSet m a.Name { SHA256 := hash })).exit := by
  rw [hashArtifacts]
  split
  · next t e heq => rw [heq] at h; cases h
  · next t x err heq => rw [heq] at h; cases h
  · next t hash' heq =>
    rw [heq] at h
    cases h
    rfl

theorem hashArtifacts_cons_fail (w : World) (g : Globals) (a : S3Artifact)
    (rest : List Artifact) (m : ArtifactHashes)
    (h : ∀ hash, (calculateHash w g a).exit ≠ .returned (hash, none)) :
    ∃ e, (hashArtifacts w g (Artifact.s3 a :: rest) m).exit = .panicked e := by
  rw [hashArtifacts]
  split
  · next t e heq => exact ⟨e, rfl⟩
  · next t x err heq => exact ⟨err, rfl⟩
  · next t hash heq => exact absurd (by rw [heq]) (h hash)

/-- A failing artifact anywhere in the list makes the loop panic. -/
theorem hashArtifacts_panics (w : World) (g : Globals) (a : S3Artifact)
    (hf : hashingFails w g a) (arts : List Artifact) :
    Artifact.s3 a ∈ arts → ∀ m, ∃ e, (hashArtifacts w g arts m).exit = .panicked e := by
  induction arts with
  | nil => intro h; cases h
  | cons b rest ih =>
    intro hmem m
    cases b with
    | s3 b =>
      by_cases hb : ∃ hash, (calculateHash w g b).exit = .returned (hash, none)
      · obtain ⟨hash, hb⟩ := hb
        rw [hashArtifacts_cons_ok w g b rest m hash hb]
        rcases List.mem_cons.1 hmem with heq | hrest
        · cases heq
          exact absurd hb (calculateHash_fails w g a hf hash)
        · exact ih hrest _
      · exact hashArtifacts_cons_fail w g b rest m (fun hash hh => hb ⟨hash, hh⟩)
    | redirect n u =>
      rcases List.mem_cons.1 hmem with heq | hrest
      · cases heq
      · simpa [hashArtifacts] using ih hrest m
    | error n u =>
      rcases List.mem_cons.1 hmem with heq | hrest
      · cases heq
      · simpa [hashArtifacts] using ih hrest m

/-- When every file artifact is readable the loop returns a map. -/
theorem hashArtifacts_returns (w : World) (g : Globals) (arts : List Artifact) :
    (∀ a, Artifact.s3 a ∈ arts → ∃ C, readable w g a C) →
    ∀ m0, ∃ m, (hashArtifacts w g arts m0).exit = .returned m := by
  induction arts with
  | nil => intro _ m0; exact ⟨m0, rfl⟩
  | cons b rest ih =>
    intro hok m0
    have hrest : ∀ a, Artifact.s3 a ∈ rest → ∃ C, readable w g a C :=
      fun a ha => hok a (List.mem_cons_of_mem _ ha)
    cases b with
    | s3 b =>
      obtain ⟨C, hC⟩ := hok b (List.mem_cons_self _ _)
      rw [hashArtifacts_cons_ok w g b rest m0 _ (calculateHash_readable w g b C hC)]
      exact ih hrest _
    | redirect n u => simpa [hashArtifacts] using ih hrest m0
    | error n u => simpa [hashArtifacts] using ih hrest m0

/-- The loop leaves alone every key that no file artifact of the list carries. -/
theorem hashArtifacts_other_key (w : World) (g : Globals) (k : String) (arts : List Artifact) :
    (∀ b, Artifact.s3 b ∈ arts → b.Name ≠ k) →
    ∀ m0 m, (hashArtifacts w g arts m0).exit = .returned m → mapGet m k = mapGet m0 k := by
  induction arts with
  | nil =>
    intro _ m0 m h
    simp only [hashArtifacts] at h
    cases h
    rfl
  | cons b rest ih =>
    intro hne m0 m h
    have hrest : ∀ a, Artifact.s3 a ∈ rest → a.Name ≠ k :=
      fun a ha => hne a (List.mem_cons_of_mem _ ha)
    cases b with
    | s3 b =>
      by_cases hb : ∃ hash, (calculateHash w g b).exit = .returned (hash, none)
      · obtain ⟨hash, hb⟩ := hb
        rw [hashArtifacts_cons_ok w g b rest m0 hash hb] at h
        rw [ih hrest _ m h, mapGet_mapSet]
        simp [hne b (List.mem_cons_self _ _)]
      · obtain ⟨e, he⟩ := hashArtifacts_cons_fail w g b rest m0 (fun hash hh => hb ⟨hash, hh⟩)
        rw [he] at h
        cases h
    | redirect n u => exact ih hrest m0 m (by simpa [hashArtifacts] using h)
    | error n u => exact ih hrest m0 m (by simpa [hashArtifacts] using h)

/-- The digest of a readable file artifact is the entry of its name, unless
a later file artifact carries the same name. -/
theorem hashArtifacts_entry (w : World) (g : Globals) (a : S3Artifact) (C : Bytes)
    (hC : readable w g a C) (post : List Artifact)
    (hlast : ∀ b, Artifact.s3 b ∈ post → b.Name ≠ a.Name) (pre : List Artifact) :
    ∀ m0 m, (hashArtifacts w g (pre ++ Artifact.s3 a :: post) m0).exit = .returned m →
      mapGet m a.Name = some { SHA256 := hexEncodeToString (SHA256.sum C) } := by
  induction pre with
  | nil =>
    intro m0 m h
    rw [List.nil_append,
      hashArtifacts_cons_ok w g a post m0 _ (calculateHash_readable w g a C hC)] at h
    rw [hashArtifacts_other_key w g a.Name post hlast _ m h, mapGet_mapSet]
    simp
  | cons b rest ih =>
    intro m0 m h
    rw [List.cons_append] at h
    cases b with
    | s3 b =>
      by_cases hb : ∃ hash, (calculateHash w g b).exit = .returned (hash, none)
      · obtain ⟨hash, hb⟩ := hb
        rw [hashArtifacts_cons_ok w g b _ m0 hash hb] at h
        exact ih _ m h
      · obtain ⟨e, he⟩ := hashArtifacts_cons_fail w g b (rest ++ Artifact.s3 a :: post) m0
          (fun hash hh => hb ⟨hash, hh⟩)
        rw [he] at h
        cases h
    | redirect n u => exact ih m0 m (by simpa [hashArtifacts] using h)
    | error n u => exact ih m0 m (by simpa [hashArtifacts] using h)

/-- With pairwise distinct names the keys of the map are the names of the
file artifacts, in order, after the keys the map started with. -/
theorem hashArtifacts_keys (w : World) (g : Globals) (arts : List Artifact) :
    ∀ m0 m, (m0.map Prod.fst ++ (s3Artifacts arts).map S3Artifact.Name).Nodup →
      (hashArtifacts w g arts m0).exit = .returned m →
      m.map Prod.fst = m0.map Prod.fst ++ (s3Artifacts arts).map S3Artifact.Name := by
  induction arts with
  | nil =>
    intro m0 m _ h
    simp only [hashArtifacts] at h
    cases h
    simp [s3Artifacts]
  | cons b rest ih =>
    intro m0 m hnd h
    cases b with
    | s3 b =>
      by_cases hb : ∃ hash, (calculateHash w g b).exit = .returned (hash, none)
      · obtain ⟨hash, hb⟩ := hb
        rw [hashArtifacts_cons_ok w g b rest m0 hash hb] at h
        simp only [s3Artifacts, List.map_cons] at hnd ⊢
        have hfresh : b.Name ∉ m0.map Prod.fst := by
          intro hin
          have := List.nodup_append.1 hnd
          exact this.2.2 hin (List.mem_cons_self _ _)
        have hkeys := keys_mapSet m0 b.Name { SHA256 := hash } hfresh
        have hnd' : ((mapSet m0 b.Name { SHA256 := hash }).map Prod.fst ++
            (s3Artifacts rest).map S3Artifact.Name).Nodup := by
          rw [hkeys, List.append_assoc]
          simpa using hnd
        rw [ih _ m hnd' h, hkeys, List.append_assoc]
        rfl
      · obtain ⟨e, he⟩ := hashArtifacts_cons_fail w g b rest m0 (fun hash hh => hb ⟨hash, hh⟩)
        rw [he] at h
        cases h
    | redirect n u =>
      exact ih m0 m (by simpa [s3Artifacts] using hnd) (by simpa [hashArtifacts] using h)
    | error n u =>
      exact ih m0 m (by simpa [s3Artifacts] using hnd) (by simpa [hashArtifacts] using h)

/-! ## Lemmas on the digest string -/

theorem toBytesBE_length (n x : Nat) : (SHA256.toBytesBE n x).length = n := by
  induction n with
  | zero => rfl
  | succ n ih => simp [SHA256.toBytesBE, ih]

theorem sum_length (msg : Bytes) : (SHA256.sum msg).length = 32 := by
  simp [SHA256.sum, SHA256.output, toBytesBE_length]

theorem hexEncodeToString_length (bs : Bytes) :
    (hexEncodeToString bs).length = 2 * bs.length := by
  unfold hexEncodeToString
  rw [String.length_mk]
  induction bs with
  | nil => rfl
  | cons b bs ih => simp only [List.flatMap_cons, List.length_append, ih]; simp; omega

theorem hextable_getD_mem (i : Nat) (hi : i < 16) :
    hextable.getD i '0' ∈ "0123456789abcdef".data := by
  interval_cases i <;> decide

theorem hexEncodeToString_chars (bs : Bytes) :
    ∀ ch ∈ (hexEncodeToString bs).data, ch ∈ "0123456789abcdef".data := by
  intro ch hch
  unfold hexEncodeToString at hch
  simp only [List.mem_flatMap] at hch
  obtain ⟨b, -, hb⟩ := hch
  rcases List.mem_cons.1 hb with h | h
  · rw [h]
    exact hextable_getD_mem _ (by omega)
  · rw [List.mem_singleton.1 h]
    exact hextable_getD_mem _ (by omega)

/-! ## Lemmas on the events of `Stop` -/

theorem signAndUpload_no_marshal (w : World) (signedCert : String)
    (cot : ChainOfTrustTaskFeature) (certBytes : Bytes) (c : ChainOfTrustData) :
    Event.marshalIndent c ∉ (signAndUpload w signedCert cot certBytes).trace := by
  unfold signAndUpload
  split
  · simp
  · split
    · simp
    · split <;> simp

/-- The attestation handed to the serializer is `cotCert` of the map that the
hashing loop returned. -/
theorem Stop_marshal_event (w : World) (g : Globals) (cot : ChainOfTrustTaskFeature)
    (c : ChainOfTrustData) (h : Event.marshalIndent c ∈ (Stop w g cot).trace) :
    ∃ m, (hashArtifacts w g cot.task.Artifacts []).exit = .returned m ∧
      c = cotCert w g cot m := by
  cases h1 : w.copyFileContents (filepath.Join [g.TaskDir, g.logPath])
      (filepath.Join [g.TaskDir, certifiedLogPath]) with
  | some e =>
    rw [Stop_copy_failed w g cot e h1] at h
    simp at h
  | none =>
    cases h2 : w.uploadLog certifiedLogName certifiedLogPath with
    | some err =>
      rw [Stop_log_upload_failed w g cot err h1 h2] at h
      simp at h
    | none =>
      rcases h3 : hashArtifacts w g cot.task.Artifacts [] with ⟨th, m | e⟩
      · have hth : Event.marshalIndent c ∉ th := by
          intro hin
          have := hashArtifacts_trace w g cot.task.Artifacts [] (Event.marshalIndent c)
            (by rw [h3]; exact hin)
          obtain ⟨p, hp⟩ := this
          cases hp
        cases h4 : w.marshalIndent (cotCert w g cot m) with
        | error e =>
          rw [Stop_marshal_failed w g cot th m e h1 h2 h3 h4] at h
          simp [hth] at h
          exact ⟨m, rfl, h⟩
        | ok certBytes =>
          rw [Stop_marshalled w g cot th m certBytes h1 h2 h3 h4] at h
          simp [hth, signAndUpload_no_marshal] at h
          exact ⟨m, rfl, h⟩
      · rw [Stop_hash_panicked w g cot th e h1 h2 h3] at h
        have hth : Event.marshalIndent c ∉ th := by
          intro hin
          have := hashArtifacts_trace w g cot.task.Artifacts [] (Event.marshalIndent c)
            (by rw [h3]; exact hin)
          obtain ⟨p, hp⟩ := this
          cases hp
        simp [hth] at h

/-! ## Artifact digests -/

/-- C4, as stated, fails: two file artifacts are published under the name
`out.txt`; the first one hashes to the digest of `hello`, and the attestation
that `Stop` serializes stores another digest, that of the second, under its
name. -/
theorem Stop_attestation_overwrites_digest :
    (calculateHash twoFilesWorld sampleGlobals { Name := "out.txt", Path := "a.txt" }).exit =
      .returned ("2cf24dba5fb0a30e26e83b2ac5b9e29e1b161e5c1fa7425e73043362938b9824", none) ∧
    ∃ c, Event.marshalIndent c ∈ (Stop twoFilesWorld sampleGlobals sameNameFeature).trace ∧
      mapGet c.Artifacts "out.txt" =
        some { SHA256 := "e3b0c44298fc1c149afbf4c8996fb92427ae41e4649b934ca495991b7852b855" } ∧
      mapGet c.Artifacts "out.txt" ≠
        some { SHA256 := "2cf24dba5fb0a30e26e83b2ac5b9e29e1b161e5c1fa7425e73043362938b9824" } :=
  ⟨by decide!,
    cotCert twoFilesWorld sampleGlobals sameNameFeature
      [("out.txt",
        { SHA256 := "e3b0c44298fc1c149afbf4c8996fb92427ae41e4649b934ca495991b7852b855" })],
    by decide!, by decide!, by decide!⟩

/-- C4, amended: for a file artifact of the run readable with content `C`,
`calculateHash` returns without error the lowercase hexadecimal SHA-256 of
`C`, 64 characters among `0-9a-f`, and the attestation that `Stop` serializes
stores that string under the name of the artifact, provided no later file
artifact of the run carries the same name. -/
theorem calculateHash_digest_in_attestation (w : World) (g : Globals)
    (cot : ChainOfTrustTaskFeature) (pre post : List Artifact) (a : S3Artifact) (C : Bytes)
    (harts : cot.task.Artifacts = pre ++ Artifact.s3 a :: post)
    (hread : readable w g a C)
    (hlast : ∀ b, Artifact.s3 b ∈ post → b.Name ≠ a.Name) :
    (calculateHash w g a).exit = .returned (hexEncodeToString (SHA256.sum C), none) ∧
    (hexEncodeToString (SHA256.sum C)).length = 64 ∧
    (∀ ch ∈ (hexEncodeToString (SHA256.sum C)).data, ch ∈ "0123456789abcdef".data) ∧
    ∀ c, Event.marshalIndent c ∈ (Stop w g cot).trace →
      mapGet c.Artifacts a.Name = some { SHA256 := hexEncodeToString (SHA256.sum C) } := by
  refine ⟨calculateHash_readable w g a C hread, ?_, hexEncodeToString_chars _, ?_⟩
  · rw [hexEncodeToString_length, sum_length]
  · intro c hc
    obtain ⟨m, hm, rfl⟩ := Stop_marshal_event w g cot c hc
    rw [harts] at hm
    exact hashArtifacts_entry w g a C hread post hlast pre [] m hm

/-- C4 at the run with the artifact `out.txt` holding `hello`: the
attestation is serialized and holds the digest of `hello`. -/
theorem calculateHash_digest_in_attestation_witness :
    Event.marshalIndent (cotCert calmWorld sampleGlobals sampleFeature
        [("out.txt",
          { SHA256 := "2cf24dba5fb0a30e26e83b2ac5b9e29e1b161e5c1fa7425e73043362938b9824" })]) ∈
      (Stop calmWorld sampleGlobals sampleFeature).trace ∧
    hexEncodeToString (SHA256.sum [104, 101, 108, 108, 111]) =
      "2cf24dba5fb0a30e26e83b2ac5b9e29e1b161e5c1fa7425e73043362938b9824" ∧
    mapGet (cotCert calmWorld sampleGlobals sampleFeature
        [("out.txt",
          { SHA256 := "2cf24dba5fb0a30e26e83b2ac5b9e29e1b161e5c1fa7425e73043362938b9824" })]).Artifacts
      "out.txt" = some { SHA256 := hexEncodeToString (SHA256.sum [104, 101, 108, 108, 111]) } :=
  have hin : Event.marshalIndent (cotCert calmWorld sampleGlobals sampleFeature
        [("out.txt",
          { SHA256 := "2cf24dba5fb0a30e26e83b2ac5b9e29e1b161e5c1fa7425e73043362938b9824" })]) ∈
      (Stop calmWorld sampleGlobals sampleFeature).trace := by decide!
  ⟨hin, by decide!,
    (calculateHash_digest_in_attestation calmWorld sampleGlobals sampleFeature []
      [Artifact.redirect "public/link" "https://example.com"]
      { Name := "out.txt", Path := "out.txt" } [104, 101, 108, 108, 111] rfl rfl
      (by intro b hb; simp at hb)).2.2.2 _ hin⟩

theorem s3Artifacts_append (l1 l2 : List Artifact) :
    s3Artifacts (l1 ++ l2) = s3Artifacts l1 ++ s3Artifacts l2 := by
  induction l1 with
  | nil => rfl
  | cons b l1 ih => cases b <;> simp [s3Artifacts, ih]

theorem mem_s3Artifacts (l : List Artifact) (b : S3Artifact) :
    b ∈ s3Artifacts l ↔ Artifact.s3 b ∈ l := by
  induction l with
  | nil => simp [s3Artifacts]
  | cons x l ih => cases x <;> simp [s3Artifacts, ih]

/-- C5, as stated, fails: both file artifacts are readable, and the map that
the loop of `Stop` builds has one entry for the two of them, since they are
published under the same name. -/
theorem hashArtifacts_merges_equal_names :
    (∀ a, Artifact.s3 a ∈ sameNameFeature.task.Artifacts →
      ∃ C, readable twoFilesWorld sampleGlobals a C) ∧
    (s3Artifacts sameNameFeature.task.Artifacts).length = 2 ∧
    ∃ m, (hashArtifacts twoFilesWorld sampleGlobals sameNameFeature.task.Artifacts []).exit =
        .returned m ∧ m.length = 1 := by
  refine ⟨?_, rfl, [("out.txt",
    { SHA256 := "e3b0c44298fc1c149afbf4c8996fb92427ae41e4649b934ca495991b7852b855" })],
    by decide!, rfl⟩
  intro a ha
  have ha' : a = { Name := "out.txt", Path := "a.txt" } ∨ a = { Name := "out.txt", Path := "b.txt" } := by
    simpa [sameNameFeature] using ha
  rcases ha' with rfl | rfl
  · exact ⟨[104, 101, 108, 108, 111], by unfold readable; rfl⟩
  · exact ⟨[], by unfold readable; rfl⟩

/-- C5, amended: when every file artifact of the run is readable and the
names of the file artifacts are pairwise distinct, the loop of `Stop` returns
a map with as many entries as file artifacts, whose keys are their names,
each mapped to the digest of its own file; artifacts of another kind add no
entry and no error; and this map is the one in the serialized attestation. -/
theorem hashArtifacts_one_entry_per_file_artifact (w : World) (g : Globals)
    (cot : ChainOfTrustTaskFeature)
    (hok : ∀ a, Artifact.s3 a ∈ cot.task.Artifacts → ∃ C, readable w g a C)
    (hnd : ((s3Artifacts cot.task.Artifacts).map S3Artifact.Name).Nodup) :
    ∃ m, (hashArtifacts w g cot.task.Artifacts []).exit = .returned m ∧
      m.length = (s3Artifacts cot.task.Artifacts).length ∧
      m.map Prod.fst = (s3Artifacts cot.task.Artifacts).map S3Artifact.Name ∧
      (∀ a C, Artifact.s3 a ∈ cot.task.Artifacts → readable w g a C →
        mapGet m a.Name = some { SHA256 := hexEncodeToString (SHA256.sum C) }) ∧
      (∀ c, Event.marshalIndent c ∈ (Stop w g cot).trace → c.Artifacts = m) := by
  obtain ⟨m, hm⟩ := hashArtifacts_returns w g cot.task.Artifacts hok []
  have hkeys := hashArtifacts_keys w g cot.task.Artifacts [] m (by simpa using hnd) hm
  simp only [List.map_nil, List.nil_append] at hkeys
  refine ⟨m, hm, ?_, hkeys, ?_, ?_⟩
  · have := congrArg List.length hkeys
    simpa using this
  · intro a C ha hC
    obtain ⟨pre, post, hsplit⟩ := List.append_of_mem ha
    rw [hsplit] at hm hnd
    refine hashArtifacts_entry w g a C hC post ?_ pre [] m hm
    intro b hb hname
    rw [s3Artifacts_append, List.map_append] at hnd
    have hnd2 := (List.nodup_append.1 hnd).2.1
    simp only [s3Artifacts, List.map_cons, List.nodup_cons] at hnd2
    exact hnd2.1 (List.mem_map.2 ⟨b, (mem_s3Artifacts post b).2 hb, hname⟩)
  · intro c hc
    obtain ⟨m', hm', rfl⟩ := Stop_marshal_event w g cot c hc
    rw [hm] at hm'
    cases hm'
    rfl

/-- C5 at the run with the file artifact `out.txt` and a redirect artifact. -/
theorem hashArtifacts_one_entry_per_file_artifact_witness :
    ∃ m, (hashArtifacts calmWorld sampleGlobals sampleFeature.task.Artifacts []).exit =
        .returned m ∧
      m.length = (s3Artifacts sampleFeature.task.Artifacts).length ∧
      m.map Prod.fst = (s3Artifacts sampleFeature.task.Artifacts).map S3Artifact.Name ∧
      (∀ a C, Artifact.s3 a ∈ sampleFeature.task.Artifacts →
        readable calmWorld sampleGlobals a C →
        mapGet m a.Name = some { SHA256 := hexEncodeToString (SHA256.sum C) }) ∧
      (∀ c, Event.marshalIndent c ∈ (Stop calmWorld sampleGlobals sampleFeature).trace →
        c.Artifacts = m) :=
  hashArtifacts_one_entry_per_file_artifact calmWorld sampleGlobals sampleFeature
    (fun _ _ => ⟨[104, 101, 108, 108, 111], rfl⟩) (by decide)

/-! ## Failed digests -/

/-- When the hashing loop panics, `Stop` has only copied the log, uploaded
the certified log and opened artifact files. -/
theorem Stop_trace_of_hash_panic (w : World) (g : Globals) (cot : ChainOfTrustTaskFeature)
    (e : GoError) (h : (hashArtifacts w g cot.task.Artifacts []).exit = .panicked e) :
    (∀ ev ∈ (Stop w g cot).trace,
      ev = Event.copyFileContents (filepath.Join [g.TaskDir, g.logPath])
        (filepath.Join [g.TaskDir, certifiedLogPath]) ∨
      ev = Event.uploadLog certifiedLogName certifiedLogPath ∨ ∃ p, ev = Event.osOpen p) ∧
    (Stop w g cot).exit ≠ .returned none := by
  cases h1 : w.copyFileContents (filepath.Join [g.TaskDir, g.logPath])
      (filepath.Join [g.TaskDir, certifiedLogPath]) with
  | some e1 =>
    rw [Stop_copy_failed w g cot e1 h1]
    exact ⟨fun ev hev => Or.inl (List.mem_singleton.1 hev), by simp⟩
  | none =>
    cases h2 : w.uploadLog certifiedLogName certifiedLogPath with
    | some err =>
      rw [Stop_log_upload_failed w g cot err h1 h2]
      refine ⟨fun ev hev => ?_, by simp⟩
      rcases List.mem_cons.1 hev with h' | h'
      · exact Or.inl h'
      · exact Or.inr (Or.inl (List.mem_singleton.1 h'))
    | none =>
      rcases h3 : hashArtifacts w g cot.task.Artifacts [] with ⟨th, m | e3⟩
      · rw [h3] at h
        cases h
      · rw [Stop_hash_panicked w g cot th e3 h1 h2 h3]
        refine ⟨fun ev hev => ?_, by simp⟩
        rcases List.mem_append.1 hev with h' | h'
        · rcases List.mem_cons.1 h' with h'' | h''
          · exact Or.inl h''
          · exact Or.inr (Or.inl (List.mem_singleton.1 h''))
        · exact Or.inr (Or.inr (hashArtifacts_trace w g cot.task.Artifacts [] ev
            (by rw [h3]; exact h')))

/-- C6: when hashing a file artifact of the run fails, `Stop` serializes no
attestation, does not create the file of the signed certificate, does not
upload the signed certificate, and does not return nil. -/
theorem Stop_aborts_on_failed_digest (w : World) (g : Globals) (cot : ChainOfTrustTaskFeature)
    (a : S3Artifact) (ha : Artifact.s3 a ∈ cot.task.Artifacts) (hf : hashingFails w g a) :
    (∀ c, Event.marshalIndent c ∉ (Stop w g cot).trace) ∧
    (∀ p, Event.osCreate p ∉ (Stop w g cot).trace) ∧
    (∀ p b, Event.ioCopy p b ∉ (Stop w g cot).trace) ∧
    (signedCertName, signedCertPath) ∉ uploads (Stop w g cot).trace ∧
    (Stop w g cot).exit ≠ .returned none := by
  have hne : Event.uploadLog signedCertName signedCertPath ≠
      Event.uploadLog certifiedLogName certifiedLogPath := by decide
  obtain ⟨e, he⟩ := hashArtifacts_panics w g a hf cot.task.Artifacts ha []
  obtain ⟨htr, hexit⟩ := Stop_trace_of_hash_panic w g cot e he
  refine ⟨?_, ?_, ?_, ?_, hexit⟩
  · intro c hc
    rcases htr _ hc with h | h | ⟨p, h⟩ <;> cases h
  · intro p hp
    rcases htr _ hp with h | h | ⟨q, h⟩ <;> cases h
  · intro p b hp
    rcases htr _ hp with h | h | ⟨q, h⟩ <;> cases h
  · intro hu
    rcases htr _ ((mem_uploads _ _ _).1 hu) with h | h | ⟨q, h⟩
    · cases h
    · exact hne h
    · cases h

/-- C6 at the run whose artifact `out.txt` cannot be opened: `Stop` panics
after the upload of the certified log. -/
theorem Stop_aborts_on_failed_digest_witness :
    (∀ c, Event.marshalIndent c ∉ (Stop brokenDiskWorld sampleGlobals sampleFeature).trace) ∧
    (∀ p, Event.osCreate p ∉ (Stop brokenDiskWorld sampleGlobals sampleFeature).trace) ∧
    (∀ p b, Event.ioCopy p b ∉ (Stop brokenDiskWorld sampleGlobals sampleFeature).trace) ∧
    (signedCertName, signedCertPath) ∉
      uploads (Stop brokenDiskWorld sampleGlobals sampleFeature).trace ∧
    (Stop brokenDiskWorld sampleGlobals sampleFeature).exit ≠ .returned none :=
  Stop_aborts_on_failed_digest brokenDiskWorld sampleGlobals sampleFeature
    { Name := "out.txt", Path := "out.txt" } (by decide)
    (Or.inl ⟨{ msg := "no such file or directory" }, rfl⟩)

/-! ## The attestation -/

/-- C7: the attestation that `Stop` serializes has version 1, the task
definition, task id and run id of the run, the configured worker group and
worker id, the map returned by the hashing loop, and the configured public
IP, private IP, instance id, instance type and region, and nothing else. -/
theorem Stop_attestation_fields (w : World) (g : Globals) (cot : ChainOfTrustTaskFeature)
    (c : ChainOfTrustData) (h : Event.marshalIndent c ∈ (Stop w g cot).trace) :
    ∃ m, (hashArtifacts w g cot.task.Artifacts []).exit = .returned m ∧
      c =
        { Version := 1
          Artifacts := m
          Task := cot.task.Definition
          TaskID := cot.task.TaskID
          RunID := cot.task.RunID
          WorkerGroup := g.config.WorkerGroup
          WorkerID := g.config.WorkerID
          Environment :=
            { PublicIPAddress := w.ipString g.config.PublicIP
              PrivateIPAddress := w.ipString g.config.PrivateIP
              InstanceID := g.config.InstanceID
              InstanceType := g.config.InstanceType
              Region := g.config.Region } } := by
  obtain ⟨m, hm, hc⟩ := Stop_marshal_event w g cot c h
  exact ⟨m, hm, hc⟩

/-- C7 at the run with the artifact `out.txt` holding `hello`. -/
theorem Stop_attestation_fields_witness :
    ∃ m, (hashArtifacts calmWorld sampleGlobals sampleFeature.task.Artifacts []).exit =
        .returned m ∧
      ({ Version := 1
         Artifacts :=
          [("out.txt",
            { SHA256 := "2cf24dba5fb0a30e26e83b2ac5b9e29e1b161e5c1fa7425e73043362938b9824" })]
         Task := { json := "\x7b\x7d" }
         TaskID := "T1"
         RunID := 0
         WorkerGroup := "us-west-2"
         WorkerID := "i-0a1"
         Environment :=
          { PublicIPAddress := "10.0.0.1"
            PrivateIPAddress := "10.0.0.1"
            InstanceID := "i-0a1"
            InstanceType := "m3.large"
            Region := "us-west-2" } } : ChainOfTrustData) =
        { Version := 1
          Artifacts := m
          Task := sampleFeature.task.Definition
          TaskID := sampleFeature.task.TaskID
          RunID := sampleFeature.task.RunID
          WorkerGroup := sampleGlobals.config.WorkerGroup
          WorkerID := sampleGlobals.config.WorkerID
          Environment :=
            { PublicIPAddress := calmWorld.ipString sampleGlobals.config.PublicIP
              PrivateIPAddress := calmWorld.ipString sampleGlobals.config.PrivateIP
              InstanceID := sampleGlobals.config.InstanceID
              InstanceType := sampleGlobals.config.InstanceType
              Region := sampleGlobals.config.Region } } :=
  Stop_attestation_fields calmWorld sampleGlobals sampleFeature _ (by decide!)

end GenericWorker
